import Mathlib

/-!
Shallow embedding of the facefix-backend HTTP service.  The repository is a
thin relay: an upload endpoint creates a job record, a deferred background
task either copies the upload (pass-through preset) or drives an external
prediction API, and two read endpoints serve job records and result files.

Modelling choices, all taken from the source:
* a directory is an association list from filename to contents; writing a
  file conses at the front and lookups take the first match, which is
  last-writer-wins, the behaviour of overwriting a file on disk;
* in the file-backed revision the job store is the results directory itself,
  one JSON file named jobId.json per job, colocated with result images;
* the external Replicate API is an oracle record: whether the token is
  configured, the outcome of create-prediction, the polled status sequence,
  and the download function;
* wall-clock time in the polling loop advances by pollMs per iteration
  (polls themselves are instantaneous), so elapsed time at iteration i is
  i * pollMs;
* timestamps (createdAt, finishedAt) are real-time strings and are omitted
  from the job record.
-/

set_option autoImplicit false

namespace FaceFix

universe u

/-- File contents as a list of byte values. -/
abbrev Bytes := List Nat

/-- First-match lookup in an association list. -/
def lookupKey {α : Type u} (k : String) : List (String × α) → Option α
  | [] => none
  | (k₁, v) :: rest => if k₁ = k then some v else lookupKey k rest

/-- Remove every entry with the given key (deleting a file; a no-op when the
file is absent, which is how the swallowed unlink failure shows up). -/
def removeKey {α : Type u} (k : String) : List (String × α) → List (String × α)
  | [] => []
  | (k₁, v) :: rest =>
    if k₁ = k then removeKey k rest else (k₁, v) :: removeKey k rest

/-- JavaScript `x || d` for an optional string field: absent and the empty
string are falsy and fall back to the default. -/
def jsOr (x : Option String) (d : String) : String :=
  match x with
  | none => d
  | some s => if s = "" then d else s

/-- JavaScript `.trim().toLowerCase()` on a string, carried out on the
character list: drop whitespace at both ends, then lowercase each
character.  (Spelled out structurally rather than through `String.trim`
and `String.toLower`, which are extensionally the same on these inputs but
are defined by recursion on byte positions.) -/
def jsTrimLower (s : String) : String :=
  String.mk
    ((((s.data.dropWhile Char.isWhitespace).reverse.dropWhile
        Char.isWhitespace).reverse).map Char.toLower)

/-- `normalizePreset` from src/index.js: default the raw field to
"Original", trim, lowercase, then map full names and one-letter codes to the
canonical key; anything else is null. -/
def normalizePreset (presetRaw : Option String) : Option String :=
  let s := jsTrimLower (jsOr presetRaw "Original")
  if s = "original" ∨ s = "orig" ∨ s = "o" then some "original"
  else if s = "h" ∨ s = "hollywood" then some "hollywood"
  else if s = "c" ∨ s = "cool" then some "cool"
  else if s = "m" ∨ s = "model" then some "model"
  else if s = "e" ∨ s = "elegant" then some "elegant"
  else if s = "f" ∨ s = "fierce" then some "fierce"
  else if s = "n" ∨ s = "natural" then some "natural"
  else none

/-- One entry of the `presetConfig` table.  `passThrough` is mode "none";
the LoRA scale is kept in hundredths to stay in exact arithmetic. -/
structure PresetCfg where
  passThrough : Bool
  lora_weights : String
  lora_scaleHundredths : Nat
  prompt : String
deriving DecidableEq

/-- The `presetConfig` table from src/index.js. -/
def presetConfig : String → Option PresetCfg := fun k =>
  if k = "original" then some ⟨true, "", 0, ""⟩
  else if k = "hollywood" then
    some ⟨false, "dx8152/Qwen-Image-Edit-2509-Relight", 90,
      "portrait beauty enhancement, hollywood glamour lighting, warm soft key light on face, natural skin texture, keep identity, do not change background"⟩
  else if k = "cool" then
    some ⟨false, "tlennon-ie/qwen-edit-skin", 100,
      "portrait retouch focused on face, cooler clean look, reduce shine, refine skin tone, subtle eye clarity, keep identity, do not change background"⟩
  else if k = "model" then
    some ⟨false, "tlennon-ie/qwen-edit-skin", 90,
      "natural beauty retouch, keep pores and skin texture, subtle improvements only, realistic, keep identity, do not change background"⟩
  else if k = "elegant" then
    some ⟨false, "tlennon-ie/qwen-edit-skin", 100,
      "elegant portrait retouch, smooth but realistic skin, gentle glow on face, refined look, keep identity, do not change background"⟩
  else if k = "fierce" then
    some ⟨false, "tlennon-ie/qwen-edit-skin", 125,
      "fierce editorial portrait retouch, sharper eyes, slightly higher contrast on face, crisp details, realistic skin texture, keep identity, do not change background"⟩
  else if k = "natural" then
    some ⟨false, "tlennon-ie/qwen-edit-skin", 100,
      "high-end fashion model portrait retouch, refined details, clean skin tone, realistic texture, keep identity, do not change background"⟩
  else none

/-- `presetKey.charAt(0).toUpperCase() + presetKey.slice(1)`. -/
def capitalize (s : String) : String :=
  match s.data with
  | [] => ""
  | c :: cs => String.mk (c.toUpper :: cs)

/-- Job status values that appear in job records. -/
inductive JStatus where
  | queued
  | processing
  | done
  | error
deriving DecidableEq

/-- A job record as written by `writeJob` in the file-backed revision.
Timestamps are omitted (real time). -/
structure Job where
  ok : Bool
  jobId : String
  status : JStatus
  preset : String
  filename : Option String := none
  errMsg : Option String := none
  replicateId : Option String := none
deriving DecidableEq

/-- A file in the results directory: either an image (bytes) or a job-record
JSON file.  Both kinds live in RESULTS_DIR in the file-backed revision. -/
inductive RFile where
  | bytes (b : Bytes)
  | jrec (j : Job)
deriving DecidableEq

/-- The two directories the service touches. -/
structure Sys where
  uploads : List (String × Bytes)
  results : List (String × RFile)
deriving DecidableEq

/-- `jobFilePath`: the job record lives at RESULTS_DIR/jobId.json. -/
def jobFilePath (jobId : String) : String := jobId ++ ".json"

/-- `writeJob`: overwrite the per-job JSON file. -/
def writeJob (results : List (String × RFile)) (jobId : String) (j : Job) :
    List (String × RFile) :=
  (jobFilePath jobId, RFile.jrec j) :: results

/-- `readJob`: null when the file is absent; parsing a non-record file is
not reached under the flows modelled here. -/
def readJob (results : List (String × RFile)) (jobId : String) : Option Job :=
  match lookupKey (jobFilePath jobId) results with
  | some (RFile.jrec j) => some j
  | _ => none

/-- An incoming POST /v1/impression request after multer ran: the stored
upload path with its bytes (none when the image field was missing), and the
raw preset field. -/
structure Request where
  file : Option (String × Bytes)
  preset : Option String

/-- The allowed list sent back on an unknown preset. -/
def allowedPresets : List String :=
  ["Original", "Hollywood", "Cool", "Model", "Elegant", "Fierce", "Natural"]

/-- The three response bodies of the file-backed POST /v1/impression. -/
inductive ImpressionResp where
  | accepted (ok : Bool) (jobId : String) (status : String) (preset : String)
  | missingImage (ok : Bool) (error : String)
  | unknownPreset (ok : Bool) (error : String) (receivedPreset : Option String)
      (allowed : List String)
deriving DecidableEq

/-- HTTP status code of each response body. -/
def ImpressionResp.statusCode : ImpressionResp → Nat
  | .accepted .. => 200
  | .missingImage .. => 400
  | .unknownPreset .. => 400

/-- What the deferred background closure captures. -/
structure BgTask where
  jobId : String
  presetKey : String
  presetName : String
  inputPath : String
deriving DecidableEq

/-- Result of the synchronous part of the handler: the HTTP response, the
state at the moment the response is sent, and the scheduled background
task if any. -/
structure HandlerOut where
  resp : ImpressionResp
  sys : Sys
  task : Option BgTask
deriving DecidableEq

/-- The synchronous part of the file-backed POST /v1/impression handler.
Multer stores the upload before the handler body runs, so a present file is
written into the uploads directory even on rejected requests.  The job id is
a parameter standing for the fresh random id. -/
def postImpression (jobId : String) (req : Request) (s₀ : Sys) : HandlerOut :=
  let s : Sys :=
    match req.file with
    | some (p, b) => { s₀ with uploads := (p, b) :: s₀.uploads }
    | none => s₀
  match req.file with
  | none =>
    { resp := .missingImage false "image is required (field name: image)",
      sys := s, task := none }
  | some (p, _) =>
    match normalizePreset req.preset with
    | none =>
      { resp := .unknownPreset false "Unknown preset" req.preset allowedPresets,
        sys := s, task := none }
    | some key =>
      if (presetConfig key).isSome then
        let presetName := capitalize key
        let q : Job := { ok := true, jobId := jobId, status := .queued,
                         preset := presetName }
        { resp := .accepted true jobId "queued" presetName,
          sys := { s with results := writeJob s.results jobId q },
          task := some ⟨jobId, key, presetName, p⟩ }
      else
        { resp := .unknownPreset false "Unknown preset" req.preset allowedPresets,
          sys := s, task := none }

/-- GET /v1/jobs/:jobId — none means HTTP 404. -/
def getJob (s : Sys) (jobId : String) : Option Job :=
  readJob s.results jobId

/-- GET /v1/result/:filename — none means HTTP 404, some f means HTTP 200
serving whatever file is at that name in the results directory. -/
def getResult (s : Sys) (filename : String) : Option RFile :=
  lookupKey filename s.results

/-! External API oracle and the background task of the file-backed
revision. -/

/-- A JavaScript value as far as the output handling inspects it. -/
inductive JVal where
  | str (s : String)
  | arr (l : List JVal)
  | nullv
  | other

mutual

/-- Rough JSON.stringify, used only to build the unexpected-output error
message (\x7b and \x7d stand for the two brace characters). -/
def jsonOf : JVal → String
  | .str s => "\"" ++ s ++ "\""
  | .arr l => "[" ++ jsonOfList l ++ "]"
  | .nullv => "null"
  | .other => "\x7b\x7d"

/-- Comma-separated JSON of a list of values. -/
def jsonOfList : List JVal → String
  | [] => ""
  | [v] => jsonOf v
  | v :: w :: rest => jsonOf v ++ "," ++ jsonOfList (w :: rest)

end

/-- One poll of the prediction: terminal success carries the output value,
failure and cancellation carry the optional error field, and everything
else keeps the loop going. -/
inductive PollRes where
  | succeeded (output : JVal)
  | failed (err : Option String)
  | canceled (err : Option String)
  | pending

/-- The message thrown when the credential is absent. -/
def tokenMissingMsg : String :=
  "REPLICATE_API_TOKEN is missing. Add it in Railway Variables."

/-- The message thrown by the polling loop on timeout. -/
def timeoutMsg : String := "Replicate timeout: still not finished"

/-- The message thrown on a failed or canceled prediction; the error field
defaults like a JavaScript falsy value. -/
def replicateFailMsg (e : Option String) : String :=
  "Replicate failed: " ++ jsOr e "Unknown Replicate error"

/-- `waitForReplicate`: poll until succeeded (return the output), failed or
canceled (throw), or elapsed time exceeds the timeout (throw).  Iteration i
runs at elapsed time i * pollMs. -/
def waitForReplicate (polls : Nat → PollRes) (timeoutMs pollMs : Nat)
    (hp : 0 < pollMs) (i : Nat) : Except String JVal :=
  match polls i with
  | .succeeded o => .ok o
  | .failed e => .error (replicateFailMsg e)
  | .canceled e => .error (replicateFailMsg e)
  | .pending =>
    if h : timeoutMs < i * pollMs then .error timeoutMsg
    else waitForReplicate polls timeoutMs pollMs hp (i + 1)
termination_by timeoutMs + 1 - i * pollMs
decreasing_by
  simp at h
  have h2 : Nat.succ i * pollMs = i * pollMs + pollMs := Nat.succ_mul i pollMs
  have h3 : (i + 1) * pollMs = i * pollMs + pollMs := Nat.succ_mul i pollMs
  omega

/-- `const url = Array.isArray(output) ? output[output.length-1] : output`
followed by the truthy-string check; none means the check threw. -/
def pickUrl : JVal → Option String
  | .arr l =>
    match l.getLast? with
    | some (.str s) => if s = "" then none else some s
    | _ => none
  | .str s => if s = "" then none else some s
  | _ => none

/-- The external world as the background task sees it. -/
structure Ext where
  tokenPresent : Bool
  create : Except String String
  polls : Nat → PollRes
  download : String → Except String Bytes

/-- The try block of the background task.  On success it returns the new
state together with the terminal record it wrote; on .error the caller
writes the error record.  No branch that throws has touched the results
directory, matching the source, where the download is the only write and
happens after every throwing step. -/
def bgTry (ext : Ext) (t : BgTask) (s : Sys) : Except String (Sys × Job) :=
  let outName := t.jobId ++ ".jpg"
  if t.presetKey = "original" then
    match lookupKey t.inputPath s.uploads with
    | none => .error "ENOENT: no such file or directory"
    | some b =>
      let s₁ : Sys := { s with results := (outName, RFile.bytes b) :: s.results }
      let j : Job := { ok := true, jobId := t.jobId, status := .done,
                       preset := t.presetName, filename := some outName }
      .ok ({ s₁ with results := writeJob s₁.results t.jobId j }, j)
  else
    match lookupKey t.inputPath s.uploads with
    | none => .error "ENOENT: no such file or directory"
    | some _ =>
      if ext.tokenPresent then
        match ext.create with
        | .error m => .error m
        | .ok pid =>
          match waitForReplicate ext.polls 180000 1500 (by decide) 0 with
          | .error m => .error m
          | .ok out =>
            match pickUrl out with
            | none => .error ("Unexpected Replicate output: " ++ jsonOf out)
            | some url =>
              match ext.download url with
              | .error m => .error m
              | .ok bytes =>
                let s₁ : Sys :=
                  { s with results := (outName, RFile.bytes bytes) :: s.results }
                let j : Job := { ok := true, jobId := t.jobId, status := .done,
                                 preset := t.presetName,
                                 filename := some outName,
                                 replicateId := some pid }
                .ok ({ s₁ with results := writeJob s₁.results t.jobId j }, j)
      else .error tokenMissingMsg

/-- The whole deferred background task: try, catch (write the error
record), finally (best-effort unlink of the upload — touching only the
uploads directory, so it cannot change the recorded outcome).  Also
returns the list of job-record writes the task performed, in order. -/
def runBackground (ext : Ext) (t : BgTask) (s : Sys) : Sys × List Job :=
  let afterTry : Sys × List Job :=
    match bgTry ext t s with
    | .ok (s₁, j) => (s₁, [j])
    | .error m =>
      let j : Job := { ok := true, jobId := t.jobId, status := .error,
                       preset := t.presetName, errMsg := some m }
      ({ s with results := writeJob s.results t.jobId j }, [j])
  ({ afterTry.1 with uploads := removeKey t.inputPath afterTry.1.uploads },
   afterTry.2)

/-- Handler followed by its background task (when one was scheduled): the
full lifecycle of one request.  The second component is the final state
paired with the job-record writes of the background task. -/
def processRequest (ext : Ext) (jobId : String) (req : Request) (s : Sys) :
    HandlerOut × (Sys × List Job) :=
  let h := postImpression jobId req s
  match h.task with
  | some t => (h, runBackground ext t h.sys)
  | none => (h, (h.sys, []))

/-! The in-memory revision: its handler checks the credential at request
time and returns 500 before creating any job. -/

/-- A job record of the in-memory revision. -/
structure MemJob where
  status : JStatus
  preset : String
  inputFilename : String
  resultFilename : Option String := none
  errMsg : Option String := none
deriving DecidableEq

/-- Response bodies of the in-memory POST /v1/impression handler. -/
inductive MemResp where
  | noImage (ok : Bool) (error : String)
  | noToken (ok : Bool) (error : String)
  | accepted (ok : Bool) (jobId : String) (status : String) (preset : String)
deriving DecidableEq

/-- HTTP status code of each in-memory response body. -/
def MemResp.statusCode : MemResp → Nat
  | .noImage .. => 400
  | .noToken .. => 500
  | .accepted .. => 200

/-- The synchronous part of the in-memory POST /v1/impression handler: the
preset defaults like a falsy field, a missing image is 400, a missing
credential is 500 before any job is created, otherwise the queued record is
stored and the response sent.  The async continuation is not modelled; no
claim depends on it. -/
def postImpressionMem (tokenPresent : Bool) (jobId : String) (req : Request)
    (jobs : List (String × MemJob)) : MemResp × List (String × MemJob) :=
  let preset := jsOr req.preset "Original"
  match req.file with
  | none => (.noImage false "No image file. Use field name 'image'.", jobs)
  | some (fname, _) =>
    if tokenPresent then
      (.accepted true jobId "queued" preset,
       (jobId, { status := .queued, preset := preset,
                 inputFilename := fname }) :: jobs)
    else
      (.noToken false "Missing REPLICATE_API_TOKEN in environment variables",
       jobs)

/-! Helper lemmas shared by the claim theorems. -/

/-- Every key produced by `normalizePreset` has an entry in `presetConfig`,
so the second guard of the handler never rejects a normalized preset. -/
theorem normalizePreset_config {r : Option String} {k : String}
    (h : normalizePreset r = some k) : (presetConfig k).isSome = true := by
  simp only [normalizePreset] at h
  split_ifs at h <;> (injection h with h; subst h; decide)

/-- Appending different suffixes to the same string gives different
strings. -/
theorem append_suffix_ne (a s t : String) (h : s.data ≠ t.data) :
    a ++ s ≠ a ++ t := by
  intro he
  apply h
  have hd : (a ++ s).data = (a ++ t).data := congrArg String.data he
  rw [String.data_append, String.data_append] at hd
  exact List.append_cancel_left hd

/-- The job-record file and the result image of a job have different
names. -/
theorem jpg_ne_json (jobId : String) : jobId ++ ".jpg" ≠ jobId ++ ".json" := by
  exact append_suffix_ne jobId ".jpg" ".json" (by decide)

/-- The accepted path of the handler, shared by several claim theorems:
the response, the stored queued record, and the scheduled task. -/
theorem postImpression_accept
    (jobId : String) (req : Request) (s : Sys) (p : String) (b : Bytes)
    (key : String) (hf : req.file = some (p, b))
    (hk : normalizePreset req.preset = some key) :
    postImpression jobId req s =
      { resp := ImpressionResp.accepted true jobId "queued" (capitalize key),
        sys := { uploads := (p, b) :: s.uploads,
                 results := writeJob s.results jobId
                   { ok := true, jobId := jobId, status := JStatus.queued,
                     preset := capitalize key } },
        task := some ⟨jobId, key, capitalize key, p⟩ } := by
  have hc := normalizePreset_config hk
  unfold postImpression
  simp only [hf, hk, hc, if_true]

/-- Deleting a file removes it from lookups. -/
theorem lookupKey_removeKey {α : Type u} (k : String)
    (l : List (String × α)) : lookupKey k (removeKey k l) = none := by
  induction l with
  | nil => rfl
  | cons hd tl ih =>
    obtain ⟨k₁, v⟩ := hd
    by_cases h : k₁ = k <;> simp [removeKey, lookupKey, h, ih]

/-- If the prediction never leaves a non-terminal status, the polling loop
ends with the timeout error, whatever iteration it starts from. -/
theorem waitForReplicate_timeout (polls : Nat → PollRes)
    (timeoutMs pollMs : Nat) (hp : 0 < pollMs)
    (hall : ∀ i, polls i = PollRes.pending) (i : Nat) :
    waitForReplicate polls timeoutMs pollMs hp i = Except.error timeoutMsg := by
  unfold waitForReplicate
  simp only [hall i]
  split
  · rfl
  · exact waitForReplicate_timeout polls timeoutMs pollMs hp hall (i + 1)
termination_by timeoutMs + 1 - i * pollMs
decreasing_by
  rename_i h
  have h2 : (i + 1) * pollMs = i * pollMs + pollMs := by
    rw [Nat.add_mul, Nat.one_mul]
  omega

/-- Whenever the try block of the background task returns normally, the
record it wrote is a done record for this job carrying the jobId.jpg result
name, and it is the record now stored for the job. -/
theorem bgTry_ok (ext : Ext) (t : BgTask) (s : Sys) (s₁ : Sys) (j : Job)
    (h : bgTry ext t s = Except.ok (s₁, j)) :
    j.status = JStatus.done ∧ j.jobId = t.jobId ∧ j.preset = t.presetName ∧
    j.filename = some (t.jobId ++ ".jpg") ∧
    readJob s₁.results t.jobId = some j ∧
    (∀ f, ¬(f = t.jobId ++ ".jpg") → ¬(f = t.jobId ++ ".json") →
      lookupKey f s₁.results = lookupKey f s.results) := by
  unfold bgTry at h
  repeat' split at h
  all_goals
    first
      | exact Except.noConfusion h
      | (injection h with h2
         cases h2
         exact ⟨rfl, rfl, rfl, rfl, by simp [readJob, writeJob, lookupKey],
           fun f h1 h2 => by
             have h1' : ¬(t.jobId ++ ".jpg" = f) := fun hx => h1 hx.symm
             have h2' : ¬(t.jobId ++ ".json" = f) := fun hx => h2 hx.symm
             simp [writeJob, jobFilePath, lookupKey, h1', h2']⟩)

/-- The background task, on any state and any external behaviour, writes
exactly one job record, a terminal one for this job; afterwards the record
is stored, a done record names jobId.jpg, and the upload file is gone. -/
theorem runBackground_trace (ext : Ext) (t : BgTask) (s : Sys) :
    ∃ j : Job, (runBackground ext t s).2 = [j] ∧ j.jobId = t.jobId ∧
      (j.status = JStatus.done ∨ j.status = JStatus.error) ∧
      (j.status = JStatus.done → j.filename = some (t.jobId ++ ".jpg")) ∧
      readJob (runBackground ext t s).1.results t.jobId = some j ∧
      lookupKey t.inputPath (runBackground ext t s).1.uploads = none := by
  unfold runBackground
  cases hbg : bgTry ext t s with
  | ok pr =>
    obtain ⟨s₁, j⟩ := pr
    obtain ⟨hst, hid, -, hfn, hrd, -⟩ := bgTry_ok ext t s s₁ j hbg
    exact ⟨j, rfl, hid, Or.inl hst, fun _ => hfn, hrd,
      lookupKey_removeKey _ _⟩
  | error m =>
    refine ⟨_, rfl, rfl, Or.inr rfl, fun h => by simp at h, ?_,
      lookupKey_removeKey _ _⟩
    simp [readJob, writeJob, lookupKey]

/-- Frame: the background task never writes a results-directory entry with
a name other than jobId.jpg and jobId.json, so every other filename
resolves afterwards exactly as it did before. -/
theorem runBackground_frame (ext : Ext) (t : BgTask) (s : Sys) (f : String)
    (h1 : ¬(f = t.jobId ++ ".jpg")) (h2 : ¬(f = t.jobId ++ ".json")) :
    lookupKey f (runBackground ext t s).1.results = lookupKey f s.results := by
  unfold runBackground
  cases hbg : bgTry ext t s with
  | ok pr =>
    obtain ⟨s₁, j⟩ := pr
    obtain ⟨-, -, -, -, -, hfr⟩ := bgTry_ok ext t s s₁ j hbg
    simpa using hfr f h1 h2
  | error m =>
    have h2' : ¬(t.jobId ++ ".json" = f) := fun hx => h2 hx.symm
    simp [writeJob, jobFilePath, lookupKey, h2']

/-- When the stored record of a job exists, the result endpoint serves the
colocated job-record file jobId.json rather than returning 404. -/
theorem readJob_getResult (s : Sys) (jobId : String) (j : Job)
    (h : readJob s.results jobId = some j) :
    getResult s (jobId ++ ".json") = some (RFile.jrec j) := by
  unfold readJob at h
  cases hlk : lookupKey (jobFilePath jobId) s.results with
  | none => rw [hlk] at h; exact absurd h (by simp)
  | some rf =>
    cases rf with
    | bytes b => rw [hlk] at h; exact absurd h (by simp)
    | jrec j₁ =>
      rw [hlk] at h
      simp only [Option.some.injEq] at h
      subst h
      exact hlk

/-- Full evaluation of an accepted pass-through request: the final state of
the two directories, shared by several claim theorems. -/
theorem processRequest_original
    (ext : Ext) (jobId : String) (req : Request) (s : Sys) (p : String)
    (b : Bytes) (hf : req.file = some (p, b))
    (hk : normalizePreset req.preset = some "original") :
    (processRequest ext jobId req s).2.1 =
      { uploads := removeKey p ((p, b) :: s.uploads),
        results :=
          (jobId ++ ".json",
            RFile.jrec { ok := true, jobId := jobId, status := JStatus.done,
                         preset := "Original",
                         filename := some (jobId ++ ".jpg") }) ::
          (jobId ++ ".jpg", RFile.bytes b) ::
          (jobId ++ ".json",
            RFile.jrec { ok := true, jobId := jobId,
                         status := JStatus.queued,
                         preset := "Original" }) :: s.results } := by
  have hcap : capitalize "original" = "Original" := by decide
  unfold processRequest
  rw [postImpression_accept jobId req s p b "original" hf hk, hcap]
  simp [runBackground, bgTry, writeJob, jobFilePath, lookupKey]

/-! Claim theorems. -/

/-- C1: an accepted POST /v1/impression (image present, preset recognized)
responds with ok, the fresh job id, status queued and the display preset
name, and the queued job record is already in the store that the response
is sent from, so GET /v1/jobs/:jobId on that state finds it (no 404). -/
theorem C1_accept_queued_and_fetchable
    (jobId : String) (req : Request) (s : Sys) (p : String) (b : Bytes)
    (key : String) (hf : req.file = some (p, b))
    (hk : normalizePreset req.preset = some key) :
    (postImpression jobId req s).resp
      = ImpressionResp.accepted true jobId "queued" (capitalize key) ∧
    getJob (postImpression jobId req s).sys jobId
      = some { ok := true, jobId := jobId, status := JStatus.queued,
               preset := capitalize key } := by
  rw [postImpression_accept jobId req s p b key hf hk]
  constructor
  · rfl
  · simp [getJob, readJob, writeJob, lookupKey]

/-- Witness for C1 at a concrete request. -/
theorem C1_accept_queued_and_fetchable_witness :
    (postImpression "j1" ⟨some ("u1.jpg", [7, 8]), some "Hollywood"⟩
        ⟨[], []⟩).resp
      = ImpressionResp.accepted true "j1" "queued" (capitalize "hollywood") ∧
    getJob (postImpression "j1" ⟨some ("u1.jpg", [7, 8]), some "Hollywood"⟩
        ⟨[], []⟩).sys "j1"
      = some { ok := true, jobId := "j1", status := JStatus.queued,
               preset := capitalize "hollywood" } :=
  C1_accept_queued_and_fetchable "j1" _ _ "u1.jpg" [7, 8] "hollywood" rfl
    (by decide)

/-- C2: a request whose preset does not normalize is rejected with 400, the
results directory (and so the job store) is untouched, no background task is
scheduled, and when the image was present the body is the unknown-preset
error carrying the allowed list. -/
theorem C2_unknown_preset_rejected
    (jobId : String) (req : Request) (s : Sys)
    (hk : normalizePreset req.preset = none) :
    (postImpression jobId req s).resp.statusCode = 400 ∧
    (postImpression jobId req s).sys.results = s.results ∧
    (postImpression jobId req s).task = none ∧
    (∀ f, req.file = some f →
      (postImpression jobId req s).resp
        = ImpressionResp.unknownPreset false "Unknown preset" req.preset
            allowedPresets) := by
  unfold postImpression
  cases hf : req.file with
  | none => simp [ImpressionResp.statusCode]
  | some fb =>
    obtain ⟨p, b⟩ := fb
    simp [hk, ImpressionResp.statusCode]

/-- Witness for C2 at a concrete request with an unrecognized preset. -/
theorem C2_unknown_preset_rejected_witness :
    (postImpression "j1" ⟨some ("u1.jpg", [7]), some "Unknown"⟩
        ⟨[], []⟩).resp.statusCode = 400 ∧
    (postImpression "j1" ⟨some ("u1.jpg", [7]), some "Unknown"⟩
        ⟨[], []⟩).sys.results = (⟨[], []⟩ : Sys).results ∧
    (postImpression "j1" ⟨some ("u1.jpg", [7]), some "Unknown"⟩
        ⟨[], []⟩).task = none ∧
    (∀ f, (⟨some ("u1.jpg", [7]), some "Unknown"⟩ : Request).file = some f →
      (postImpression "j1" ⟨some ("u1.jpg", [7]), some "Unknown"⟩
        ⟨[], []⟩).resp
        = ImpressionResp.unknownPreset false "Unknown preset" (some "Unknown")
            allowedPresets) :=
  C2_unknown_preset_rejected "j1" _ _ (by decide)

/-- C3: in the in-memory revision, a request with an image but no
configured REPLICATE_API_TOKEN gets HTTP 500 at request time, and no job is
created. -/
theorem C3_missing_token_request_time_500
    (jobId : String) (req : Request) (jobs : List (String × MemJob))
    (f : String × Bytes) (hf : req.file = some f) :
    (postImpressionMem false jobId req jobs).1
      = MemResp.noToken false
          "Missing REPLICATE_API_TOKEN in environment variables" ∧
    (postImpressionMem false jobId req jobs).1.statusCode = 500 ∧
    (postImpressionMem false jobId req jobs).2 = jobs := by
  unfold postImpressionMem
  obtain ⟨p, b⟩ := f
  simp [hf, MemResp.statusCode]

/-- Witness for C3 at a concrete request. -/
theorem C3_missing_token_request_time_500_witness :
    (postImpressionMem false "j1" ⟨some ("u1.jpg", [7]), some "Hollywood"⟩
        []).1
      = MemResp.noToken false
          "Missing REPLICATE_API_TOKEN in environment variables" ∧
    (postImpressionMem false "j1" ⟨some ("u1.jpg", [7]), some "Hollywood"⟩
        []).1.statusCode = 500 ∧
    (postImpressionMem false "j1" ⟨some ("u1.jpg", [7]), some "Hollywood"⟩
        []).2 = [] :=
  C3_missing_token_request_time_500 "j1" _ _ ("u1.jpg", [7]) rfl

/-- C9: a request with an image but an absent or empty preset field is
accepted: the preset defaults to Original and the queued job record is
created. -/
theorem C9_absent_preset_defaults_original
    (jobId : String) (req : Request) (s : Sys) (p : String) (b : Bytes)
    (hf : req.file = some (p, b))
    (hp : req.preset = none ∨ req.preset = some "") :
    (postImpression jobId req s).resp
      = ImpressionResp.accepted true jobId "queued" "Original" ∧
    getJob (postImpression jobId req s).sys jobId
      = some { ok := true, jobId := jobId, status := JStatus.queued,
               preset := "Original" } := by
  have hk : normalizePreset req.preset = some "original" := by
    rcases hp with h | h <;> rw [h] <;> decide
  have hcap : capitalize "original" = "Original" := by decide
  rw [postImpression_accept jobId req s p b "original" hf hk]
  rw [hcap]
  constructor
  · rfl
  · simp [getJob, readJob, writeJob, lookupKey]

/-- C4: for an accepted job with the pass-through preset, the result file
stored at jobId.jpg is byte-for-byte the uploaded input, and the job record
is the done record naming it. -/
theorem C4_passthrough_byte_identical
    (ext : Ext) (jobId : String) (req : Request) (s : Sys) (p : String)
    (b : Bytes) (hf : req.file = some (p, b))
    (hk : normalizePreset req.preset = some "original") :
    lookupKey (jobId ++ ".jpg") (processRequest ext jobId req s).2.1.results
      = some (RFile.bytes b) ∧
    readJob (processRequest ext jobId req s).2.1.results jobId
      = some { ok := true, jobId := jobId, status := JStatus.done,
               preset := "Original", filename := some (jobId ++ ".jpg") } := by
  have hcap : capitalize "original" = "Original" := by decide
  have hne : ¬(jobId ++ ".json" = jobId ++ ".jpg") :=
    fun h => jpg_ne_json jobId h.symm
  unfold processRequest
  rw [postImpression_accept jobId req s p b "original" hf hk, hcap]
  simp [runBackground, bgTry, writeJob, readJob, jobFilePath, lookupKey, hne]

/-- Witness for C4: a concrete PNG-ish upload with preset Original. -/
theorem C4_passthrough_byte_identical_witness :
    lookupKey ("j1" ++ ".jpg")
      (processRequest ⟨true, Except.ok "p", fun _ => PollRes.pending,
          fun _ => Except.error "e"⟩ "j1"
        ⟨some ("u1.png", [9, 9, 9]), some "Original"⟩ ⟨[], []⟩).2.1.results
      = some (RFile.bytes [9, 9, 9]) ∧
    readJob
      (processRequest ⟨true, Except.ok "p", fun _ => PollRes.pending,
          fun _ => Except.error "e"⟩ "j1"
        ⟨some ("u1.png", [9, 9, 9]), some "Original"⟩ ⟨[], []⟩).2.1.results
      "j1"
      = some { ok := true, jobId := "j1", status := JStatus.done,
               preset := "Original", filename := some ("j1" ++ ".jpg") } :=
  C4_passthrough_byte_identical _ "j1" _ _ "u1.png" [9, 9, 9] rfl (by decide)

/-- C5: for a styled job whose prediction was created but never reports a
terminal status, the polling loop (180000 ms budget, 1500 ms interval) times
out, the job record becomes the error record carrying the timeout message,
the only writes to the results directory are the two job records, and in
particular no result file appears at jobId.jpg. -/
theorem C5_timeout_then_error_and_no_result
    (ext : Ext) (jobId : String) (req : Request) (s : Sys) (p : String)
    (b : Bytes) (key : String) (pid : String)
    (hf : req.file = some (p, b))
    (hk : normalizePreset req.preset = some key)
    (hko : ¬(key = "original"))
    (htok : ext.tokenPresent = true)
    (hcr : ext.create = Except.ok pid)
    (hall : ∀ i, ext.polls i = PollRes.pending) :
    readJob (processRequest ext jobId req s).2.1.results jobId
      = some { ok := true, jobId := jobId, status := JStatus.error,
               preset := capitalize key, errMsg := some timeoutMsg } ∧
    (processRequest ext jobId req s).2.1.results
      = writeJob (writeJob s.results jobId
          { ok := true, jobId := jobId, status := JStatus.queued,
            preset := capitalize key }) jobId
          { ok := true, jobId := jobId, status := JStatus.error,
            preset := capitalize key, errMsg := some timeoutMsg } ∧
    lookupKey (jobId ++ ".jpg") (processRequest ext jobId req s).2.1.results
      = lookupKey (jobId ++ ".jpg") s.results := by
  have hw := waitForReplicate_timeout ext.polls 180000 1500 (by decide) hall 0
  have hne : ¬(jobId ++ ".json" = jobId ++ ".jpg") :=
    fun h => jpg_ne_json jobId h.symm
  unfold processRequest
  rw [postImpression_accept jobId req s p b key hf hk]
  simp [runBackground, bgTry, hko, htok, hcr, hw, writeJob, readJob,
        jobFilePath, lookupKey, hne]

/-- Witness for C5: a concrete styled upload whose polls all stay pending. -/
theorem C5_timeout_then_error_and_no_result_witness :
    readJob
      (processRequest ⟨true, Except.ok "p1", fun _ => PollRes.pending,
          fun _ => Except.error "e"⟩ "j1"
        ⟨some ("u1.jpg", [7]), some "Cool"⟩ ⟨[], []⟩).2.1.results "j1"
      = some { ok := true, jobId := "j1", status := JStatus.error,
               preset := capitalize "cool", errMsg := some timeoutMsg } ∧
    (processRequest ⟨true, Except.ok "p1", fun _ => PollRes.pending,
          fun _ => Except.error "e"⟩ "j1"
        ⟨some ("u1.jpg", [7]), some "Cool"⟩ ⟨[], []⟩).2.1.results
      = writeJob (writeJob ([] : List (String × RFile)) "j1"
          { ok := true, jobId := "j1", status := JStatus.queued,
            preset := capitalize "cool" }) "j1"
          { ok := true, jobId := "j1", status := JStatus.error,
            preset := capitalize "cool", errMsg := some timeoutMsg } ∧
    lookupKey ("j1" ++ ".jpg")
      (processRequest ⟨true, Except.ok "p1", fun _ => PollRes.pending,
          fun _ => Except.error "e"⟩ "j1"
        ⟨some ("u1.jpg", [7]), some "Cool"⟩ ⟨[], []⟩).2.1.results
      = lookupKey ("j1" ++ ".jpg") ([] : List (String × RFile)) :=
  C5_timeout_then_error_and_no_result _ "j1" _ _ "u1.jpg" [7] "cool" "p1"
    rfl (by decide) (by decide) rfl rfl (fun _ => rfl)

/-- Witness for C9 at a concrete request with an empty preset field. -/
theorem C9_absent_preset_defaults_original_witness :
    (postImpression "j1" ⟨some ("u1.jpg", [7]), some ""⟩ ⟨[], []⟩).resp
      = ImpressionResp.accepted true "j1" "queued" "Original" ∧
    getJob (postImpression "j1" ⟨some ("u1.jpg", [7]), some ""⟩ ⟨[], []⟩).sys
        "j1"
      = some { ok := true, jobId := "j1", status := JStatus.queued,
               preset := "Original" } :=
  C9_absent_preset_defaults_original "j1" _ _ "u1.jpg" [7] rfl (Or.inr rfl)

/-- A concrete pass-through run used to exhibit the result-endpoint
behaviour: empty directories, a three-byte upload, preset Original, job id
j1. -/
def cExt : Ext :=
  ⟨true, Except.ok "p", fun _ => PollRes.pending, fun _ => Except.error "e"⟩

/-- The final state of the concrete pass-through run. -/
def cFinal : Sys :=
  (processRequest cExt "j1" ⟨some ("u1.png", [9, 9, 9]), some "Original"⟩
    ⟨[], []⟩).2.1

/-- C6 counterexample: in the file-backed revision the job-record JSON
lives in the results directory, so after the concrete job reached done with
recorded filename j1.jpg, GET /v1/result/j1.json — an identifier other than
the recorded filename — is served (not 404), refuting the claim that every
other identifier returns 404. -/
theorem C6_counterexample :
    readJob cFinal.results "j1"
      = some { ok := true, jobId := "j1", status := JStatus.done,
               preset := "Original", filename := some "j1.jpg" } ∧
    ¬("j1.json" = "j1.jpg") ∧
    ¬(getResult cFinal "j1.json" = none) := by decide

/-- C6 amended: for every accepted job that reaches done — by either done
branch — GET /v1/result/:filename with the recorded filename jobId.jpg
returns exactly the bytes written during that job's processing (the
uploaded bytes for the pass-through preset, the downloaded bytes for a
styled preset); every filename other than jobId.jpg and jobId.json
resolves exactly as before the job ran, so on a fresh results directory it
returns 404; but the colocated job-record file jobId.json is served rather
than returning 404. -/
theorem C6_amended_result_serving
    (ext : Ext) (jobId : String) (req : Request) (s : Sys) (p : String)
    (b : Bytes) (key : String) (hf : req.file = some (p, b))
    (hk : normalizePreset req.preset = some key) :
    (key = "original" →
      getResult (processRequest ext jobId req s).2.1 (jobId ++ ".jpg")
        = some (RFile.bytes b) ∧
      readJob (processRequest ext jobId req s).2.1.results jobId
        = some { ok := true, jobId := jobId, status := JStatus.done,
                 preset := "Original",
                 filename := some (jobId ++ ".jpg") }) ∧
    (∀ pid out url rb, ¬(key = "original") →
      ext.tokenPresent = true →
      ext.create = Except.ok pid →
      waitForReplicate ext.polls 180000 1500 (by decide) 0 = Except.ok out →
      pickUrl out = some url →
      ext.download url = Except.ok rb →
      getResult (processRequest ext jobId req s).2.1 (jobId ++ ".jpg")
        = some (RFile.bytes rb) ∧
      readJob (processRequest ext jobId req s).2.1.results jobId
        = some { ok := true, jobId := jobId, status := JStatus.done,
                 preset := capitalize key,
                 filename := some (jobId ++ ".jpg"),
                 replicateId := some pid }) ∧
    (∃ j : Job, getResult (processRequest ext jobId req s).2.1
        (jobId ++ ".json") = some (RFile.jrec j)) ∧
    (∀ f, ¬(f = jobId ++ ".jpg") → ¬(f = jobId ++ ".json") →
      getResult (processRequest ext jobId req s).2.1 f = getResult s f) := by
  have hne : ¬(jobId ++ ".json" = jobId ++ ".jpg") :=
    fun h => jpg_ne_json jobId h.symm
  refine ⟨?_, ?_, ?_, ?_⟩
  · intro hkey
    subst hkey
    rw [processRequest_original ext jobId req s p b hf hk]
    constructor
    · simp [getResult, lookupKey, hne]
    · simp [readJob, jobFilePath, lookupKey]
  · intro pid out url rb hko htok hcr hwr hpu hdl
    unfold processRequest
    rw [postImpression_accept jobId req s p b key hf hk]
    dsimp only
    simp [runBackground, bgTry, hko, htok, hcr, hwr, hpu, hdl, writeJob,
          jobFilePath, lookupKey, getResult, readJob, hne]
  · unfold processRequest
    rw [postImpression_accept jobId req s p b key hf hk]
    dsimp only
    obtain ⟨j, -, -, -, -, hrd, -⟩ :=
      runBackground_trace ext ⟨jobId, key, capitalize key, p⟩
        { uploads := (p, b) :: s.uploads,
          results := writeJob s.results jobId
            { ok := true, jobId := jobId, status := JStatus.queued,
              preset := capitalize key } }
    exact ⟨j, readJob_getResult _ jobId j hrd⟩
  · intro f h1 h2
    unfold processRequest
    rw [postImpression_accept jobId req s p b key hf hk]
    dsimp only
    unfold getResult
    rw [runBackground_frame ext _ _ f h1 h2]
    have h2' : ¬(jobId ++ ".json" = f) := fun hx => h2 hx.symm
    simp [writeJob, jobFilePath, lookupKey, h2']

/-- Witness for the amended C6 at a concrete styled request whose
prediction succeeds at once and downloads two bytes. -/
theorem C6_amended_result_serving_witness :
    ("cool" = "original" →
      getResult (processRequest
          ⟨true, Except.ok "p9", fun _ => PollRes.succeeded (JVal.str "u"),
            fun _ => Except.ok [3, 4]⟩ "j1"
          ⟨some ("up.jpg", [7]), some "Cool"⟩ ⟨[], []⟩).2.1 ("j1" ++ ".jpg")
        = some (RFile.bytes [7]) ∧
      readJob (processRequest
          ⟨true, Except.ok "p9", fun _ => PollRes.succeeded (JVal.str "u"),
            fun _ => Except.ok [3, 4]⟩ "j1"
          ⟨some ("up.jpg", [7]), some "Cool"⟩ ⟨[], []⟩).2.1.results "j1"
        = some { ok := true, jobId := "j1", status := JStatus.done,
                 preset := "Original",
                 filename := some ("j1" ++ ".jpg") }) ∧
    (∀ pid out url rb, ¬("cool" = "original") →
      (⟨true, Except.ok "p9", fun _ => PollRes.succeeded (JVal.str "u"),
          fun _ => Except.ok [3, 4]⟩ : Ext).tokenPresent = true →
      (⟨true, Except.ok "p9", fun _ => PollRes.succeeded (JVal.str "u"),
          fun _ => Except.ok [3, 4]⟩ : Ext).create = Except.ok pid →
      waitForReplicate
          (⟨true, Except.ok "p9", fun _ => PollRes.succeeded (JVal.str "u"),
            fun _ => Except.ok [3, 4]⟩ : Ext).polls 180000 1500 (by decide) 0
        = Except.ok out →
      pickUrl out = some url →
      (⟨true, Except.ok "p9", fun _ => PollRes.succeeded (JVal.str "u"),
          fun _ => Except.ok [3, 4]⟩ : Ext).download url = Except.ok rb →
      getResult (processRequest
          ⟨true, Except.ok "p9", fun _ => PollRes.succeeded (JVal.str "u"),
            fun _ => Except.ok [3, 4]⟩ "j1"
          ⟨some ("up.jpg", [7]), some "Cool"⟩ ⟨[], []⟩).2.1 ("j1" ++ ".jpg")
        = some (RFile.bytes rb) ∧
      readJob (processRequest
          ⟨true, Except.ok "p9", fun _ => PollRes.succeeded (JVal.str "u"),
            fun _ => Except.ok [3, 4]⟩ "j1"
          ⟨some ("up.jpg", [7]), some "Cool"⟩ ⟨[], []⟩).2.1.results "j1"
        = some { ok := true, jobId := "j1", status := JStatus.done,
                 preset := capitalize "cool",
                 filename := some ("j1" ++ ".jpg"),
                 replicateId := some pid }) ∧
    (∃ j : Job, getResult (processRequest
        ⟨true, Except.ok "p9", fun _ => PollRes.succeeded (JVal.str "u"),
          fun _ => Except.ok [3, 4]⟩ "j1"
        ⟨some ("up.jpg", [7]), some "Cool"⟩ ⟨[], []⟩).2.1 ("j1" ++ ".json")
      = some (RFile.jrec j)) ∧
    (∀ f, ¬(f = "j1" ++ ".jpg") → ¬(f = "j1" ++ ".json") →
      getResult (processRequest
          ⟨true, Except.ok "p9", fun _ => PollRes.succeeded (JVal.str "u"),
            fun _ => Except.ok [3, 4]⟩ "j1"
          ⟨some ("up.jpg", [7]), some "Cool"⟩ ⟨[], []⟩).2.1 f
        = getResult ⟨[], []⟩ f) :=
  C6_amended_result_serving _ "j1" _ _ "up.jpg" [7] "cool" rfl (by decide)

/-- C7: for every accepted request, the job record starts queued, and the
background task — under every external behaviour — performs exactly one
further job-record write, a terminal one (done or error); as the write
trace is complete, nothing changes the status after the terminal write. -/
theorem C7_lifecycle_terminal_once
    (ext : Ext) (jobId : String) (req : Request) (s : Sys) (p : String)
    (b : Bytes) (key : String)
    (hf : req.file = some (p, b))
    (hk : normalizePreset req.preset = some key) :
    getJob (postImpression jobId req s).sys jobId
      = some { ok := true, jobId := jobId, status := JStatus.queued,
               preset := capitalize key } ∧
    ∃ t : Job, (processRequest ext jobId req s).2.2 = [t] ∧
      t.jobId = jobId ∧
      (t.status = JStatus.done ∨ t.status = JStatus.error) := by
  constructor
  · rw [postImpression_accept jobId req s p b key hf hk]
    simp [getJob, readJob, writeJob, lookupKey]
  · unfold processRequest
    rw [postImpression_accept jobId req s p b key hf hk]
    dsimp only
    obtain ⟨j, htr, hid, hterm, -, -, -⟩ :=
      runBackground_trace ext ⟨jobId, key, capitalize key, p⟩ _
    exact ⟨j, htr, hid, hterm⟩

/-- Witness for C7 at a concrete styled request. -/
theorem C7_lifecycle_terminal_once_witness :
    getJob (postImpression "j1" ⟨some ("u1.jpg", [7]), some "Fierce"⟩
        ⟨[], []⟩).sys "j1"
      = some { ok := true, jobId := "j1", status := JStatus.queued,
               preset := capitalize "fierce" } ∧
    ∃ t : Job,
      (processRequest cExt "j1" ⟨some ("u1.jpg", [7]), some "Fierce"⟩
        ⟨[], []⟩).2.2 = [t] ∧
      t.jobId = "j1" ∧
      (t.status = JStatus.done ∨ t.status = JStatus.error) :=
  C7_lifecycle_terminal_once cExt "j1" _ _ "u1.jpg" [7] "fierce" rfl
    (by decide)

/-- C8: after the background task finishes — under every external
behaviour, and also when the upload file is already gone so that the unlink
fails and is swallowed — the upload path no longer resolves in the uploads
directory, and the stored job record is terminal; the cleanup acts only on
the uploads directory, so it cannot change the recorded outcome. -/
theorem C8_upload_cleanup_best_effort (ext : Ext) (t : BgTask) (s : Sys) :
    lookupKey t.inputPath (runBackground ext t s).1.uploads = none ∧
    ∃ j : Job, readJob (runBackground ext t s).1.results t.jobId = some j ∧
      (j.status = JStatus.done ∨ j.status = JStatus.error) := by
  obtain ⟨j, -, -, hterm, -, hrd, hup⟩ := runBackground_trace ext t s
  exact ⟨hup, j, hrd, hterm⟩

/-- C10: in the file-backed revision, whenever the stored record of an
accepted job reads done, its filename field is exactly the job id followed
by .jpg, whatever the uploaded file was named or typed; and with the
pass-through preset the bytes stored under that .jpg name are exactly the
uploaded bytes (the upload is copied, never transcoded). -/
theorem C10_done_filename_jobid_jpg
    (ext : Ext) (jobId : String) (req : Request) (s : Sys) (p : String)
    (b : Bytes) (key : String)
    (hf : req.file = some (p, b))
    (hk : normalizePreset req.preset = some key) :
    (∀ j : Job,
        readJob (processRequest ext jobId req s).2.1.results jobId = some j →
        j.status = JStatus.done → j.filename = some (jobId ++ ".jpg")) ∧
    (key = "original" →
        lookupKey (jobId ++ ".jpg")
          (processRequest ext jobId req s).2.1.results
          = some (RFile.bytes b)) := by
  constructor
  · intro j hj hdone
    revert hj
    unfold processRequest
    rw [postImpression_accept jobId req s p b key hf hk]
    dsimp only
    intro hj
    obtain ⟨j₀, -, -, -, hfn, hrd, -⟩ :=
      runBackground_trace ext ⟨jobId, key, capitalize key, p⟩
        { uploads := (p, b) :: s.uploads,
          results := writeJob s.results jobId
            { ok := true, jobId := jobId, status := JStatus.queued,
              preset := capitalize key } }
    rw [hrd] at hj
    injection hj with hj
    subst hj
    exact hfn hdone
  · intro hkey
    subst hkey
    have hne : ¬(jobId ++ ".json" = jobId ++ ".jpg") :=
      fun h => jpg_ne_json jobId h.symm
    rw [processRequest_original ext jobId req s p b hf hk]
    simp [lookupKey, hne]

/-- Witness for C10 at a concrete pass-through upload named u1.webp. -/
theorem C10_done_filename_jobid_jpg_witness :
    (∀ j : Job,
        readJob (processRequest cExt "j1"
            ⟨some ("u1.webp", [4, 5]), some "original"⟩ ⟨[], []⟩).2.1.results
          "j1" = some j →
        j.status = JStatus.done → j.filename = some ("j1" ++ ".jpg")) ∧
    ("original" = "original" →
        lookupKey ("j1" ++ ".jpg")
          (processRequest cExt "j1"
            ⟨some ("u1.webp", [4, 5]), some "original"⟩ ⟨[], []⟩).2.1.results
          = some (RFile.bytes [4, 5])) :=
  C10_done_filename_jobid_jpg cExt "j1" _ _ "u1.webp" [4, 5] "original" rfl
    (by decide)

end FaceFix
